import Mathlib

/-!
Verification of the date-parse-performance notebook
(`src/content/date-parse-performance.ipynb`).

The notebook is a linear pipeline: a synthetic data generator (seeded numpy
stream, timestamps drawn below the current Unix time and formatted as
`MM/DD/YY HH:MM`), a string-keyed DataFrame, three index-parsing strategies
(the `DatetimeIndex` constructor, `to_datetime` with an explicit format, and
bare `to_datetime`), a daily `resample(..., how=sum)` aggregation, and a
variance-based estimator of the original record count.

Values are modelled as exact rationals, machine timestamps as natural
numbers, calendar arithmetic by the standard era-based civil-date algorithms,
and the seeded pseudo-random stream by a concrete deterministic word stream
(its distribution is irrelevant to every claim, only its determinism and the
way `randint` consumes it matter).
-/

set_option autoImplicit false

namespace DateParsePerf

/-- Civil date-time at second precision, timezone-naive (the notebook uses
local time everywhere and never crosses a timezone; we model local time as
UTC).  Mirrors the fields of the Python `datetime` values the notebook
manipulates. -/
structure DateTime where
  year : Nat
  month : Nat
  day : Nat
  hour : Nat
  minute : Nat
  second : Nat
deriving DecidableEq

/-- Days since the Unix epoch to a civil `(year, month, day)` triple: the
standard era-based algorithm underlying `datetime.fromtimestamp`, restricted
to nonnegative day counts. -/
def civilFromDays (z : Nat) : Nat × Nat × Nat :=
  let zd := z + 719468
  let era := zd / 146097
  let doe := zd % 146097
  let yoe := (doe - doe / 1460 + doe / 36524 - doe / 146096) / 365
  let y := yoe + era * 400
  let doy := doe - (365 * yoe + yoe / 4 - yoe / 100)
  let mp := (5 * doy + 2) / 153
  let d := doy - (153 * mp + 2) / 5 + 1
  let m := if mp < 10 then mp + 3 else mp - 9
  (if m ≤ 2 then y + 1 else y, m, d)

/-- Civil `(year, month, day)` to days since the Unix epoch (the inverse
era-based algorithm); the result may be negative for dates before 1970. -/
def daysFromCivil (y m d : Nat) : Int :=
  let yy := if m ≤ 2 then y - 1 else y
  let era := yy / 400
  let yoe := yy % 400
  let mp := if 2 < m then m - 3 else m + 9
  let doy := (153 * mp + 2) / 5 + d - 1
  let doe := yoe * 365 + yoe / 4 - yoe / 100 + doy
  (era : Int) * 146097 + (doe : Int) - 719468

/-- Gregorian leap-year rule. -/
def isLeap (y : Nat) : Bool := y % 4 == 0 && (y % 100 != 0 || y % 400 == 0)

/-- Number of days in a month of a given year. -/
def daysInMonth (y m : Nat) : Nat :=
  if m == 2 then (if isLeap y then 29 else 28)
  else if m == 4 || m == 6 || m == 9 || m == 11 then 30
  else 31

/-- Python `datetime.fromtimestamp` for a nonnegative Unix second count
(local time modelled as UTC). -/
def fromtimestamp (ts : Nat) : DateTime :=
  let ymd := civilFromDays (ts / 86400)
  let rem := ts % 86400
  ⟨ymd.1, ymd.2.1, ymd.2.2, rem / 3600, rem % 3600 / 60, rem % 60⟩

/-- Two-digit zero-padded decimal rendering of a field value below 100. -/
def pad2 (n : Nat) : List Char := [Char.ofNat (48 + n / 10), Char.ofNat (48 + n % 10)]

/-- Python `strftime` with the `%m/%d/%y %H:%M` directives: the fixed
`MM/DD/YY HH:MM` layout
used by the generator.  Seconds are dropped and the year keeps only its last
two digits. -/
def formatChars (t : DateTime) : List Char :=
  pad2 t.month ++ '/' :: (pad2 t.day ++ '/' :: (pad2 (t.year % 100) ++
    ' ' :: (pad2 t.hour ++ ':' :: pad2 t.minute)))

/-- The `date_string` built for each generated record. -/
def date_string (t : DateTime) : String := String.mk (formatChars t)

/-- Numeric value of a decimal digit character. -/
def digitVal (c : Char) : Nat := c.toNat - 48

/-- Whether a character is a decimal digit. -/
def isDigitChar (c : Char) : Bool := decide (48 ≤ c.toNat ∧ c.toNat ≤ 57)

/-- Parse a two-digit decimal field from two characters. -/
def parse2 (a b : Char) : Option Nat :=
  if isDigitChar a && isDigitChar b then some (10 * digitVal a + digitVal b) else none

/-- The `%y` two-digit-year pivot used by strptime-style parsers (CPython
`_strptime`, which the pandas explicit-format path reproduces): 69-99 mean
1969-1999 and 00-68 mean 2000-2068. -/
def posixYearPivot (yy : Nat) : Nat := if 69 ≤ yy then 1900 + yy else 2000 + yy

/-- The two-digit-year resolution of the dateutil-based autodetecting parsers
(the `DatetimeIndex` constructor and bare `to_datetime` both fall back to the
dateutil parser per string): `parserinfo.convertyear` slides the year into
the century of the year the process runs in, then moves it by a century if it
lands 50 or more years away from the run year. -/
def dateutilConvertYear (runYear yy : Nat) : Nat :=
  let y := runYear / 100 * 100 + yy
  if 50 ≤ ((y : Int) - (runYear : Int)).natAbs then
    (if y < runYear then y + 100 else y - 100)
  else y

/-- Strict parsing of the fixed `MM/DD/YY HH:MM` layout: fixed-offset field
extraction, digit checks, range and calendar validation, with the two-digit
year resolved by `yearMap`.  The explicit-format strategy is this with the
POSIX pivot; the autodetecting strategies, restricted to strings of this
layout, are this with the dateutil window. -/
def parseFixedLayout (yearMap : Nat → Nat) (s : List Char) : Option DateTime :=
  match s with
  | [m1, m2, '/', d1, d2, '/', y1, y2, ' ', h1, h2, ':', n1, n2] =>
    match parse2 m1 m2, parse2 d1 d2, parse2 y1 y2, parse2 h1 h2, parse2 n1 n2 with
    | some mo, some da, some yy, some hh, some mi =>
      let yr := yearMap yy
      if 1 ≤ mo ∧ mo ≤ 12 ∧ 1 ≤ da ∧ da ≤ daysInMonth yr mo ∧ hh ≤ 23 ∧ mi ≤ 59 then
        some ⟨yr, mo, da, hh, mi, 0⟩
      else none
    | _, _, _, _, _ => none
  | _ => none

/-- Strategy B, `pd.to_datetime` with the explicit format `%m/%d/%y %H:%M`:
strict parsing
of the fixed layout with the POSIX year pivot. -/
def strptime_mdyhm (s : List Char) : Option DateTime := parseFixedLayout posixYearPivot s

/-- Strategy A, `pd.DatetimeIndex(strings)`: per-string autodetecting parse,
which for strings of the generated layout extracts the same fields but
resolves the two-digit year through the dateutil window of the year the
process runs in. -/
def dtindex_autodetect (runYear : Nat) (s : List Char) : Option DateTime :=
  parseFixedLayout (dateutilConvertYear runYear) s

/-- Strategy C, `pd.to_datetime(strings)` without a format: the same
per-string autodetecting parse as the `DatetimeIndex` constructor (the two
entry points share the dateutil fallback; only their dispatch overhead
differs). -/
def to_datetime_nofmt (runYear : Nat) (s : List Char) : Option DateTime :=
  parseFixedLayout (dateutilConvertYear runYear) s

/-- One generated record: a raw timestamp string and an observed value. -/
structure Record where
  timestamp : String
  value : ℚ
deriving DecidableEq

/-- One step of the pseudo-random word stream (a 32-bit linear congruential
step; it stands in for the numpy MT19937 core, whose exact distribution no
claim depends on). -/
def lcgNext (s : Nat) : Nat := (1664525 * s + 1013904223) % 4294967296

/-- The word stream obtained from `np.random.seed(seed)`: a deterministic
function of the seed alone. -/
def prngWord (seed : Nat) : Nat → Nat
  | 0 => lcgNext (seed % 4294967296)
  | i + 1 => lcgNext (prngWord seed i)

/-- Model of `np.random.randint(0, hi)` consuming the stream word `w`: a draw
from `[0, hi)` whose result depends on the exclusive upper bound `hi` as well
as on the word. -/
def randbelow (hi w : Nat) : Nat := w % hi

/-- Stand-in for one standard-normal draw of `np.random.randn` obtained from
a stream word (the Box-Muller arithmetic is irrelevant to every claim; only
that the value is a deterministic function of the stream matters). -/
def normalFromWord (w : Nat) : ℚ := (w : ℚ)

/-- The synthetic data generator cell: seed the stream, draw `n` normal
values, then for each row read the clock (`int(time.time())` is evaluated
anew at every loop iteration; `now i` is its value at iteration `i`), draw a
uniform timestamp below it, and format it as `MM/DD/YY HH:MM`. -/
def records (n seed : Nat) (now : Nat → Nat) : List Record :=
  (List.range n).map fun i =>
    { timestamp := date_string (fromtimestamp (randbelow (now i) (prngWord seed (n + i)))),
      value := normalFromWord (prngWord seed i) }

/-- The tabular container builder,
`pd.DataFrame(records)` followed by `set_index` on the timestamp column: one
row per record keyed
by the raw timestamp string, in insertion order, duplicate keys kept, nothing
validated. -/
def df (rs : List Record) : List (String × ℚ) := rs.map fun r => (r.timestamp, r.value)

/-- One strategy cell makes its own copy of the shared frame, `df.copy()`:
an independent table with the same contents. -/
def copy (t : List (String × ℚ)) : List (String × ℚ) := t

/-- Assigning a parsed index to the copied frame,
`df_X.index = parse(df_X.index)`: every string key is replaced by its parse,
row order and the `value` column are untouched. -/
def assignParsedIndex (parse : List Char → Option DateTime) (t : List (String × ℚ)) :
    List (Option DateTime × ℚ) := t.map fun kv => (parse kv.1.data, kv.2)

/-- The in-process state a timed strategy cell can see: the shared original
frame and the strategy-local parsed view. -/
structure NotebookState where
  df : List (String × ℚ)
  parsedView : Option (List (Option DateTime × ℚ))

/-- One timed strategy cell, `df_X = df.copy(); df_X.index = parse(...)`: the
strategy mutates only its own copy; the shared `df` binding is left alone. -/
def runStrategyCell (parse : List Char → Option DateTime) (s : NotebookState) : NotebookState :=
  { df := s.df, parsedView := some (assignParsedIndex parse (copy s.df)) }

/-- Calendar day (as days since the Unix epoch) of a parsed date-time: the
resample bucket key, with the time of day discarded. -/
def dayOf (t : DateTime) : Int := daysFromCivil t.year t.month t.day

/-- Rows of a date-time-indexed table that fall on a given calendar day. -/
def rowsOnDay (d : Int) (rows : List (DateTime × ℚ)) : List (DateTime × ℚ) :=
  rows.filter fun r => decide (dayOf r.1 = d)

/-- The aggregate of one resample bin: `none` models the null that pandas
puts in a bin holding no rows, otherwise the sum of the values of that day. -/
def binSum (d : Int) (rows : List (DateTime × ℚ)) : Option ℚ :=
  if rowsOnDay d rows = [] then none
  else some ((rowsOnDay d rows).map fun r => r.2).sum

/-- Earliest calendar day appearing in the table (0 on an empty table, a case
pandas rejects and the notebook never reaches). -/
def loDay (rows : List (DateTime × ℚ)) : Int :=
  match rows with
  | [] => 0
  | r :: rs => (rs.map fun x => dayOf x.1).foldl min (dayOf r.1)

/-- Latest calendar day appearing in the table. -/
def hiDay (rows : List (DateTime × ℚ)) : Int :=
  match rows with
  | [] => 0
  | r :: rs => (rs.map fun x => dayOf x.1).foldl max (dayOf r.1)

/-- The `date_range` the resampler lays out: every calendar day from the
first to the last observed day, inclusive. -/
def dayRange (rows : List (DateTime × ℚ)) : List Int :=
  (List.range ((hiDay rows - loDay rows).toNat + 1)).map fun (i : Nat) => loDay rows + (i : Int)

/-- The temporal aggregator, `df.resample` at daily frequency with the sum
aggregation:
pandas lays out one bin for every calendar day from the first to the last
observed day inclusive (the full `date_range`), so a day with no rows still
gets a bin, holding a null sum. -/
def daily_sum (rows : List (DateTime × ℚ)) : List (Int × Option ℚ) :=
  match rows with
  | [] => []
  | _ :: _ => (dayRange rows).map fun d => (d, binSum d rows)

/-- Arithmetic mean of a column. -/
def mean (xs : List ℚ) : ℚ := xs.sum / (xs.length : ℚ)

/-- pandas `Series.var()`: sample variance with the default `ddof=1`,
computed over the non-null entries (which is what the estimator cell feeds
it).  On fewer than two entries pandas yields a null; in the exact model the
division by zero collapses to 0. -/
def var_ddof1 (xs : List ℚ) : ℚ :=
  ((xs.map fun x => (x - mean xs) ^ 2).sum) / ((xs.length : ℚ) - 1)

/-- The day-level sums the estimator sees: the non-null bin aggregates. -/
def dayLevelSums (rows : List (DateTime × ℚ)) : List ℚ :=
  (daily_sum rows).filterMap fun e => e.2

/-- `variance = daily_sum.var()[0]`. -/
def variance (rows : List (DateTime × ℚ)) : ℚ := var_ddof1 (dayLevelSums rows)

/-- `num_days = len(daily_sum)`: the number of resample bins. -/
def num_days (rows : List (DateTime × ℚ)) : Nat := (daily_sum rows).length

/-- `est_num_original_records = variance * num_days`. -/
def est_num_original_records (rows : List (DateTime × ℚ)) : ℚ :=
  variance rows * (num_days rows : ℚ)

/-- `error_pct = 100 * (est_num_original_records - num_rows) / num_rows`. -/
def error_pct (rows : List (DateTime × ℚ)) (num_rows : Nat) : ℚ :=
  100 * (est_num_original_records rows - (num_rows : ℚ)) / (num_rows : ℚ)

/-- Spec-side definition, following the words of the specification: the
textbook sample variance of a column, written in the closed form
`(n * sum of squares - square of sum) / (n * (n - 1))` so that agreement with
the mean-deviation computation of the code is a genuine algebraic fact. -/
def sampleVariance_spec (xs : List ℚ) : ℚ :=
  ((xs.length : ℚ) * (xs.map fun x => x ^ 2).sum - xs.sum ^ 2) /
    ((xs.length : ℚ) * ((xs.length : ℚ) - 1))

/-- Spec-side definition: the count of distinct calendar days actually
present in the table, which the specification asserts `num_days` equals. -/
def distinctDaysPresent_spec (rows : List (DateTime × ℚ)) : Nat :=
  ((rows.map fun r => dayOf r.1).dedup).length

-- Sanity checks: the calendar and parsing model on concrete values from the notebook.
example : civilFromDays 0 = (1970, 1, 1) := by decide
example : civilFromDays 10957 = (2000, 1, 1) := by decide
example : daysFromCivil 1970 1 1 = 0 := by decide
example : daysFromCivil 2000 1 1 = 10957 := by decide
example : daysFromCivil 1969 12 31 = -1 := by decide
example : fromtimestamp 908215380 = ⟨1998, 10, 12, 18, 3, 0⟩ := by decide
example : date_string ⟨1998, 10, 12, 18, 3, 0⟩ = "10/12/98 18:03" := by decide
example : strptime_mdyhm ("10/12/98 18:03".data) = some ⟨1998, 10, 12, 18, 3, 0⟩ := by decide
example : dateutilConvertYear 2015 66 = 1966 := by decide
example : posixYearPivot 66 = 2066 := by decide

/-! ### Helper lemmas -/

theorem foldl_min_le_init (l : List Int) (a : Int) : l.foldl min a ≤ a := by
  induction l generalizing a with
  | nil => exact le_refl a
  | cons b l ih => exact le_trans (ih (min a b)) (min_le_left a b)

theorem foldl_min_le_mem (l : List Int) (a x : Int) (hx : x ∈ l) : l.foldl min a ≤ x := by
  induction l generalizing a with
  | nil => cases hx
  | cons b l ih =>
    rcases List.mem_cons.mp hx with h | h
    · subst h
      exact le_trans (foldl_min_le_init l (min a x)) (min_le_right a x)
    · exact ih (min a b) h

theorem le_foldl_max_init (l : List Int) (a : Int) : a ≤ l.foldl max a := by
  induction l generalizing a with
  | nil => exact le_refl a
  | cons b l ih => exact le_trans (le_max_left a b) (ih (max a b))

theorem le_foldl_max_mem (l : List Int) (a x : Int) (hx : x ∈ l) : x ≤ l.foldl max a := by
  induction l generalizing a with
  | nil => cases hx
  | cons b l ih =>
    rcases List.mem_cons.mp hx with h | h
    · subst h
      exact le_trans (le_max_right a x) (le_foldl_max_init l (max a x))
    · exact ih (max a b) h

theorem loDay_le_dayOf (rows : List (DateTime × ℚ)) (r : DateTime × ℚ) (hr : r ∈ rows) :
    loDay rows ≤ dayOf r.1 := by
  match rows with
  | [] => cases hr
  | a :: l =>
    rcases List.mem_cons.mp hr with h | h
    · subst h
      exact foldl_min_le_init _ _
    · exact foldl_min_le_mem _ _ _ (List.mem_map_of_mem _ h)

theorem dayOf_le_hiDay (rows : List (DateTime × ℚ)) (r : DateTime × ℚ) (hr : r ∈ rows) :
    dayOf r.1 ≤ hiDay rows := by
  match rows with
  | [] => cases hr
  | a :: l =>
    rcases List.mem_cons.mp hr with h | h
    · subst h
      exact le_foldl_max_init _ _
    · exact le_foldl_max_mem _ _ _ (List.mem_map_of_mem _ h)

theorem mem_dayRange (rows : List (DateTime × ℚ)) (r : DateTime × ℚ) (hr : r ∈ rows) :
    dayOf r.1 ∈ dayRange rows := by
  have h1 := loDay_le_dayOf rows r hr
  have h2 := dayOf_le_hiDay rows r hr
  simp only [dayRange, List.mem_map, List.mem_range]
  exact ⟨(dayOf r.1 - loDay rows).toNat, by omega, by omega⟩

theorem dayRange_nodup (rows : List (DateTime × ℚ)) : (dayRange rows).Nodup := by
  simp only [dayRange]
  refine List.Nodup.map ?_ (List.nodup_range _)
  intro i j hij
  have h2 : (i : Int) = (j : Int) := add_left_cancel hij
  exact_mod_cast h2

theorem sum_map_add {α : Type} (ds : List α) (f g : α → ℚ) :
    (ds.map fun d => f d + g d).sum = (ds.map f).sum + (ds.map g).sum := by
  induction ds with
  | nil => simp
  | cons d ds ih => simp only [List.map_cons, List.sum_cons, ih]; ring

theorem sum_map_ite_of_not_mem (ds : List Int) (x : Int) (c : ℚ) (hx : x ∉ ds) :
    (ds.map fun d => if x = d then c else 0).sum = 0 := by
  induction ds with
  | nil => rfl
  | cons d ds ih =>
    have hxd : x ≠ d := fun h => hx (h ▸ List.mem_cons_self d ds)
    have hxs : x ∉ ds := fun h => hx (List.mem_cons_of_mem d h)
    simp only [List.map_cons, List.sum_cons, if_neg hxd, ih hxs, zero_add]

theorem sum_map_ite_of_mem (ds : List Int) (x : Int) (c : ℚ) (hnd : ds.Nodup) (hx : x ∈ ds) :
    (ds.map fun d => if x = d then c else 0).sum = c := by
  induction ds with
  | nil => cases hx
  | cons d ds ih =>
    rcases List.mem_cons.mp hx with h | h
    · subst h
      have hxs : x ∉ ds := (List.nodup_cons.mp hnd).1
      simp [sum_map_ite_of_not_mem ds x c hxs]
    · have hxd : x ≠ d := fun he => (List.nodup_cons.mp hnd).1 (he ▸ h)
      simp [if_neg hxd, ih (List.nodup_cons.mp hnd).2 h]

theorem rowsOnDay_cons (d : Int) (a : DateTime × ℚ) (l : List (DateTime × ℚ)) :
    rowsOnDay d (a :: l) = if dayOf a.1 = d then a :: rowsOnDay d l else rowsOnDay d l := by
  simp only [rowsOnDay, List.filter_cons]
  by_cases h : dayOf a.1 = d
  · simp [h]
  · simp [h]

theorem sum_rowsOnDay_partition (l : List (DateTime × ℚ)) (ds : List Int) (hnd : ds.Nodup)
    (hcov : ∀ r ∈ l, dayOf r.1 ∈ ds) :
    (ds.map fun d => ((rowsOnDay d l).map fun r => r.2).sum).sum = (l.map fun r => r.2).sum := by
  induction l with
  | nil => simp [rowsOnDay]
  | cons a l ih =>
    have hstep : ∀ d : Int, ((rowsOnDay d (a :: l)).map fun r => r.2).sum
        = (if dayOf a.1 = d then a.2 else 0) + ((rowsOnDay d l).map fun r => r.2).sum := by
      intro d
      rw [rowsOnDay_cons]
      by_cases h : dayOf a.1 = d
      · simp [h]
      · simp [h]
    calc (ds.map fun d => ((rowsOnDay d (a :: l)).map fun r => r.2).sum).sum
        = (ds.map fun d =>
            (if dayOf a.1 = d then a.2 else 0) + ((rowsOnDay d l).map fun r => r.2).sum).sum := by
          simp only [hstep]
      _ = (ds.map fun d => if dayOf a.1 = d then a.2 else 0).sum
            + (ds.map fun d => ((rowsOnDay d l).map fun r => r.2).sum).sum :=
          sum_map_add ds _ _
      _ = a.2 + (l.map fun r => r.2).sum := by
          rw [sum_map_ite_of_mem ds _ _ hnd (hcov a (List.mem_cons_self a l)),
            ih fun r hr => hcov r (List.mem_cons_of_mem a hr)]
      _ = ((a :: l).map fun r => r.2).sum := by simp

theorem filterMap_binSum_sum (ds : List Int) (rows : List (DateTime × ℚ)) :
    (ds.filterMap fun d => binSum d rows).sum
      = (ds.map fun d => ((rowsOnDay d rows).map fun r => r.2).sum).sum := by
  induction ds with
  | nil => rfl
  | cons d ds ih =>
    rw [List.filterMap_cons, List.map_cons, List.sum_cons]
    by_cases h : rowsOnDay d rows = []
    · have hb : binSum d rows = none := by rw [binSum, if_pos h]
      simp only [hb, ih, h, List.map_nil, List.sum_nil, zero_add]
    · have hb : binSum d rows = some ((rowsOnDay d rows).map fun r => r.2).sum := by
        rw [binSum, if_neg h]
      simp only [hb, List.sum_cons, ih]

theorem daily_sum_eq (rows : List (DateTime × ℚ)) (hne : rows ≠ []) :
    daily_sum rows = (dayRange rows).map fun d => (d, binSum d rows) := by
  match rows with
  | [] => exact absurd rfl hne
  | a :: l => rfl

theorem parse2_pad2 : ∀ n : Nat, n < 100 →
    parse2 (Char.ofNat (48 + n / 10)) (Char.ofNat (48 + n % 10)) = some n := by decide

theorem daysInMonth_le (y m : Nat) : daysInMonth y m ≤ 31 := by
  rw [daysInMonth]
  split_ifs <;> omega

theorem posixYearPivot_bounds (yy : Nat) (h : yy ≤ 99) :
    1969 ≤ posixYearPivot yy ∧ posixYearPivot yy ≤ 2068 := by
  rw [posixYearPivot]
  split_ifs <;> omega

/-- Parsing the formatted rendering of any date-time with field values in
their two-digit ranges: the fields come back exactly, the two-digit year goes
through `yearMap`, the seconds drop to zero, and the calendar validation is
performed against the mapped year. -/
theorem parse_format_eq (f : Nat → Nat) (t : DateTime)
    (hm1 : 1 ≤ t.month) (hm2 : t.month ≤ 12) (hd1 : 1 ≤ t.day) (hd2 : t.day ≤ 31)
    (hh : t.hour ≤ 23) (hmi : t.minute ≤ 59) :
    parseFixedLayout f (formatChars t) =
      if t.day ≤ daysInMonth (f (t.year % 100)) t.month then
        some ⟨f (t.year % 100), t.month, t.day, t.hour, t.minute, 0⟩
      else none := by
  have e1 := parse2_pad2 t.month (by omega)
  have e2 := parse2_pad2 t.day (by omega)
  have e3 := parse2_pad2 (t.year % 100) (by omega)
  have e4 := parse2_pad2 t.hour (by omega)
  have e5 := parse2_pad2 t.minute (by omega)
  simp only [formatChars, pad2, List.cons_append, List.nil_append, parseFixedLayout,
    e1, e2, e3, e4, e5]
  by_cases hc : t.day ≤ daysInMonth (f (t.year % 100)) t.month
  · rw [if_pos ⟨hm1, hm2, hd1, hc, hh, hmi⟩, if_pos hc]
  · rw [if_neg fun hcon => hc hcon.2.2.2.1, if_neg hc]

/-- Expansion of a sum of squared deviations around an arbitrary centre. -/
theorem sum_sq_dev (xs : List ℚ) (m : ℚ) :
    (xs.map fun x => (x - m) ^ 2).sum
      = (xs.map fun x => x ^ 2).sum - 2 * m * xs.sum + (xs.length : ℚ) * m ^ 2 := by
  induction xs with
  | nil => simp
  | cons a xs ih =>
    simp only [List.map_cons, List.sum_cons, List.length_cons, ih]
    push_cast
    ring

/-- The mean-deviation computation of pandas `var(ddof=1)` agrees with the
closed-form textbook sample variance. -/
theorem var_ddof1_eq_sampleVariance (xs : List ℚ) : var_ddof1 xs = sampleVariance_spec xs := by
  cases xs with
  | nil => simp [var_ddof1, sampleVariance_spec, mean]
  | cons a l =>
    have hn : ((a :: l).length : ℚ) ≠ 0 := by
      rw [List.length_cons]
      exact_mod_cast Nat.succ_ne_zero l.length
    rw [var_ddof1, sampleVariance_spec, mean, sum_sq_dev]
    have key : ((a :: l).map fun x => x ^ 2).sum
          - 2 * ((a :: l).sum / ((a :: l).length : ℚ)) * (a :: l).sum
          + ((a :: l).length : ℚ) * ((a :: l).sum / ((a :: l).length : ℚ)) ^ 2
        = (((a :: l).length : ℚ) * ((a :: l).map fun x => x ^ 2).sum - (a :: l).sum ^ 2)
            / ((a :: l).length : ℚ) := by
      field_simp
      ring
    rw [key, div_div]

/-! ### Claim theorems -/

/-- Two rows two calendar days apart (2000-01-01 and 2000-01-03), exhibiting
the bin that the resampler synthesizes for the empty day between them. -/
def gapRows : List (DateTime × ℚ) :=
  [(⟨2000, 1, 1, 0, 0, 0⟩, 1), (⟨2000, 1, 3, 0, 0, 0⟩, 1)]

/-- C1, counterexample: on a table with rows on days 10957 and 10959 only
(2000-01-01 and 2000-01-03), the resampler does create an entry for the
zero-row day 10958 strictly between the minimum and maximum observed days,
and `num_days = len(daily_sum)` is 3 while only 2 distinct days are present. -/
theorem claim1_cex :
    (daily_sum gapRows).map Prod.fst = [10957, 10958, 10959] ∧
    rowsOnDay 10958 gapRows = [] ∧
    binSum 10958 gapRows = none ∧
    num_days gapRows = 3 ∧
    distinctDaysPresent_spec gapRows = 2 := by decide

/-- C1, amended: the daily resample produces one entry per calendar day in
the closed interval from the minimum to the maximum observed day — days with
zero rows included, carrying a null aggregate — so `num_days = len(daily_sum)`
is the length of that span, which exceeds the count of distinct days present
whenever the observed days have a gap. -/
theorem claim1_resample_span (rows : List (DateTime × ℚ)) (hne : rows ≠ []) (i : Nat)
    (hi : i < num_days rows) :
    num_days rows = (hiDay rows - loDay rows).toNat + 1 ∧
    (daily_sum rows)[i]?
      = some (loDay rows + (i : Int), binSum (loDay rows + (i : Int)) rows) := by
  constructor
  · rw [num_days, daily_sum_eq rows hne, dayRange, List.length_map, List.length_map,
      List.length_range]
  · have hlen : i < (hiDay rows - loDay rows).toNat + 1 := by
      rw [num_days, daily_sum_eq rows hne, dayRange, List.length_map, List.length_map,
        List.length_range] at hi
      exact hi
    rw [daily_sum_eq rows hne, dayRange, List.map_map, List.getElem?_map,
      List.getElem?_range hlen]
    rfl

/-- C1, witness: the amended statement evaluated on the two-row gap table at
bin index 1 (the synthesized empty day). -/
theorem claim1_witness :
    (gapRows ≠ [] ∧ 1 < num_days gapRows) ∧
    (num_days gapRows = (hiDay gapRows - loDay gapRows).toNat + 1 ∧
     (daily_sum gapRows)[(1 : Nat)]?
       = some (loDay gapRows + ((1 : Nat) : Int), binSum (loDay gapRows + ((1 : Nat) : Int)) gapRows)) :=
  ⟨⟨by decide, by decide⟩, claim1_resample_span gapRows (by decide) 1 (by decide)⟩

/-- C2, counterexample: the generator draws each timestamp below
`int(time.time())`, so two runs with the same count and the same seed but
different clock readings produce different records. -/
theorem claim2_cex :
    records 1 0 (fun _ => 1) ≠ records 1 0 (fun _ => 4294967296) := by decide

/-- C2, amended: the generator is deterministic once the clock readings are
fixed along with the count and the seed — two runs with the same `n`, the
same seed and the same per-iteration clock values produce identical record
sequences. -/
theorem claim2_deterministic (n seed : Nat) (now : Nat → Nat) (r1 r2 : List Record)
    (h1 : r1 = records n seed now) (h2 : r2 = records n seed now) : r1 = r2 :=
  h1.trans h2.symm

/-- C2, witness: two identically-parameterized runs agree. -/
theorem claim2_witness : records 1 0 (fun _ => 1) = records 1 0 (fun _ => 1) :=
  claim2_deterministic 1 0 (fun _ => 1) _ _ rfl rfl

/-- C3: the total of the daily aggregates equals the total of the original
values — exactly, in the exact-rational model, hence within every
floating-point tolerance (null bins contribute nothing, as with the
null-skipping summation pandas applies to the aggregate column). -/
theorem claim3_sum_invariant (rows : List (DateTime × ℚ)) :
    (dayLevelSums rows).sum = (rows.map fun r => r.2).sum := by
  cases rows with
  | nil => rfl
  | cons a l =>
    have hne : (a :: l : List (DateTime × ℚ)) ≠ [] := by simp
    rw [dayLevelSums, daily_sum_eq _ hne, List.filterMap_map]
    have hcomp : ((fun e : Int × Option ℚ => e.2) ∘ fun d => (d, binSum d (a :: l)))
        = fun d => binSum d (a :: l) := rfl
    rw [hcomp, filterMap_binSum_sum]
    exact sum_rowsOnDay_partition (a :: l) (dayRange (a :: l)) (dayRange_nodup _)
      (fun r hr => mem_dayRange _ r hr)

/-- C4: the estimator computes exactly the documented formulas — `variance`
is the sample variance (ddof = 1) of the day-level sums, `num_days` the
number of entries of the daily aggregate, `estimated_record_count` their
product, and `error_pct` the relative error in percent, the latter read
under the precondition of a nonzero true record count. -/
theorem claim4_estimator (rows : List (DateTime × ℚ)) (trueCount : Nat) (htc : trueCount ≠ 0) :
    variance rows = sampleVariance_spec (dayLevelSums rows) ∧
    num_days rows = (daily_sum rows).length ∧
    est_num_original_records rows = variance rows * (num_days rows : ℚ) ∧
    error_pct rows trueCount
      = 100 * (est_num_original_records rows - (trueCount : ℚ)) / (trueCount : ℚ) :=
  ⟨var_ddof1_eq_sampleVariance (dayLevelSums rows), rfl, rfl, rfl⟩

/-- Three rows over two days, used to evaluate the estimator formulas. -/
def estRows : List (DateTime × ℚ) :=
  [(⟨2000, 1, 1, 0, 0, 0⟩, 1), (⟨2000, 1, 1, 6, 0, 0⟩, 3), (⟨2000, 1, 2, 0, 0, 0⟩, 2)]

/-- C4, witness: the estimator equations at a concrete three-row table and a
true count of 3. -/
theorem claim4_witness :
    (3 : Nat) ≠ 0 ∧
    (variance estRows = sampleVariance_spec (dayLevelSums estRows) ∧
     num_days estRows = (daily_sum estRows).length ∧
     est_num_original_records estRows = variance estRows * (num_days estRows : ℚ) ∧
     error_pct estRows 3
       = 100 * (est_num_original_records estRows - ((3 : Nat) : ℚ)) / ((3 : Nat) : ℚ)) :=
  ⟨by decide, claim4_estimator estRows 3 (by decide)⟩

/-- C5, counterexample: the round trip is not the identity on all date-time
values — 1950-01-01 00:00 formats to `01/01/50 00:00`, which the
explicit-format strategy reads back as the year 2050. -/
theorem claim5_cex :
    strptime_mdyhm (formatChars ⟨1950, 1, 1, 0, 0, 0⟩) ≠ some ⟨1950, 1, 1, 0, 0, 0⟩ := by
  decide

/-- C5, amended: for every valid date-time whose year lies in the two-digit
pivot window 1969-2068 (which covers every generated timestamp), formatting
with `MM/DD/YY HH:MM` and parsing with the explicit-format strategy
reproduces the value down to minute precision, seconds dropping to zero. -/
theorem claim5_roundtrip (t : DateTime) (hm1 : 1 ≤ t.month) (hm2 : t.month ≤ 12)
    (hd1 : 1 ≤ t.day) (hd2 : t.day ≤ daysInMonth t.year t.month)
    (hh : t.hour ≤ 23) (hmi : t.minute ≤ 59)
    (hy1 : 1969 ≤ t.year) (hy2 : t.year ≤ 2068) :
    strptime_mdyhm (formatChars t) = some { t with second := 0 } := by
  have hpy : posixYearPivot (t.year % 100) = t.year := by
    rw [posixYearPivot]
    split_ifs <;> omega
  rw [strptime_mdyhm, parse_format_eq posixYearPivot t hm1 hm2 hd1
    (le_trans hd2 (daysInMonth_le _ _)) hh hmi, hpy, if_pos hd2]

/-- C5, witness: the round trip at 1998-10-12 18:03:45 returns the same
instant with the seconds dropped. -/
theorem claim5_witness :
    ((1969 : Nat) ≤ 1998 ∧ (1998 : Nat) ≤ 2068) ∧
    strptime_mdyhm (formatChars ⟨1998, 10, 12, 18, 3, 45⟩) = some ⟨1998, 10, 12, 18, 3, 0⟩ :=
  ⟨⟨by decide, by decide⟩, claim5_roundtrip ⟨1998, 10, 12, 18, 3, 45⟩ (by decide) (by decide)
    (by decide) (by decide) (by decide) (by decide) (by decide) (by decide)⟩

/-- C6, counterexample: on the well-formed string `01/01/66 00:00` the
autodetecting strategy (dateutil window, run year 2015) reads the year 1966
while the explicit-format strategy reads 2066, so the strategies do not agree
on every well-formed string. -/
theorem claim6_cex :
    dtindex_autodetect 2015 ("01/01/66 00:00".data) ≠ strptime_mdyhm ("01/01/66 00:00".data) := by
  decide

/-- C6, amended: the three strategies produce identical date-time values on
every well-formed string of the generated layout whose two-digit year the
POSIX pivot and the dateutil window resolve to the same year — which holds
for all strings the notebook generates (years 1970 through the run date). -/
theorem claim6_strategies_agree (runYear : Nat) (t : DateTime)
    (hm1 : 1 ≤ t.month) (hm2 : t.month ≤ 12) (hd1 : 1 ≤ t.day) (hd2 : t.day ≤ 31)
    (hh : t.hour ≤ 23) (hmi : t.minute ≤ 59)
    (hagree : dateutilConvertYear runYear (t.year % 100) = posixYearPivot (t.year % 100)) :
    dtindex_autodetect runYear (formatChars t) = strptime_mdyhm (formatChars t) ∧
    to_datetime_nofmt runYear (formatChars t) = dtindex_autodetect runYear (formatChars t) := by
  refine ⟨?_, rfl⟩
  rw [dtindex_autodetect, strptime_mdyhm,
    parse_format_eq (dateutilConvertYear runYear) t hm1 hm2 hd1 hd2 hh hmi,
    parse_format_eq posixYearPivot t hm1 hm2 hd1 hd2 hh hmi, hagree]

/-- C6, witness: the three strategies agree on `10/12/98 18:03` when the
process runs in 2015. -/
theorem claim6_witness :
    dateutilConvertYear 2015 (1998 % 100) = posixYearPivot (1998 % 100) ∧
    (dtindex_autodetect 2015 (formatChars ⟨1998, 10, 12, 18, 3, 0⟩)
        = strptime_mdyhm (formatChars ⟨1998, 10, 12, 18, 3, 0⟩) ∧
     to_datetime_nofmt 2015 (formatChars ⟨1998, 10, 12, 18, 3, 0⟩)
        = dtindex_autodetect 2015 (formatChars ⟨1998, 10, 12, 18, 3, 0⟩)) :=
  ⟨by decide, claim6_strategies_agree 2015 ⟨1998, 10, 12, 18, 3, 0⟩ (by decide) (by decide)
    (by decide) (by decide) (by decide) (by decide) (by decide)⟩

/-- C7: the table builder produces exactly one row per record, keyed by the
raw timestamp strings, in generation order, retaining duplicate keys and
validating nothing — the i-th row is exactly the key-value pair of the i-th
record. -/
theorem claim7_table (rs : List Record) :
    (df rs).length = rs.length ∧
    (df rs).map Prod.fst = rs.map Record.timestamp ∧
    (df rs).map Prod.snd = rs.map Record.value ∧
    ∀ i : Nat, (df rs)[i]? = rs[i]?.map fun r => (r.timestamp, r.value) := by
  refine ⟨by simp [df], ?_, ?_, fun i => by rw [df, List.getElem?_map]⟩
  · rw [df, List.map_map]
    rfl
  · rw [df, List.map_map]
    rfl

/-- C8: a strategy cell leaves the shared frame untouched — after it runs,
`df` is still the original string-keyed table — and inside its own copy only
the index changes: the row count and the `value` column of the parsed view
coincide with those of the original. -/
theorem claim8_frame (parse : List Char → Option DateTime) (s : NotebookState) :
    (runStrategyCell parse s).df = s.df ∧
    (runStrategyCell parse s).parsedView = some (assignParsedIndex parse s.df) ∧
    ∀ t : List (String × ℚ), copy t = t ∧
      (assignParsedIndex parse (copy t)).length = t.length ∧
      (assignParsedIndex parse (copy t)).map Prod.snd = t.map Prod.snd := by
  refine ⟨rfl, rfl, fun t => ⟨rfl, by simp [assignParsedIndex, copy], ?_⟩⟩
  rw [copy, assignParsedIndex, List.map_map]
  rfl

/-- Year bounds of the civil-date algorithm on the day range up to
2068-12-31 (day 36159): the computed year stays inside 1970-2068. -/
theorem civilFromDays_year_bounds (z : Nat) (hz : z ≤ 36159) :
    1970 ≤ (civilFromDays z).1 ∧ (civilFromDays z).1 ≤ 2068 := by
  simp only [civilFromDays]
  rcases lt_or_ge z 11017 with h | h
  · have hera : (z + 719468) / 146097 = 4 := by omega
    have hdoe : (z + 719468) % 146097 = z + 135080 := by omega
    rw [hera, hdoe]
    rcases eq_or_lt_of_le (Nat.lt_succ_iff.mp h) with hlast | hz2
    · subst hlast
      split_ifs <;> omega
    · have e1 : (z + 135080) / 36524 = 3 := by omega
      have e2 : (z + 135080) / 146096 = 0 := by omega
      rw [e1, e2]
      rcases lt_or_ge ((z + 135080 - (z + 135080) / 1460 + 3 - 0) / 365) 370 with hy | hy
      · have hy369 : (z + 135080 - (z + 135080) / 1460 + 3 - 0) / 365 = 369 := by omega
        rw [hy369]
        split_ifs <;> omega
      · split_ifs <;> omega
  · have hera : (z + 719468) / 146097 = 5 := by omega
    have hdoe : (z + 719468) % 146097 = z - 11017 := by omega
    rw [hera, hdoe]
    have e1 : (z - 11017) / 36524 = 0 := by omega
    have e2 : (z - 11017) / 146096 = 0 := by omega
    rw [e1, e2]
    rcases lt_or_ge ((z - 11017 - (z - 11017) / 1460 + 0 - 0) / 365) 68 with hy | hy
    · split_ifs <;> omega
    · have hy68 : (z - 11017 - (z - 11017) / 1460 + 0 - 0) / 365 = 68 := by omega
      rw [hy68]
      split_ifs <;> omega

/-- C10: the two-digit-year pivot of the explicit-format strategy maps 69-99
to 1969-1999 and 00-68 to 2000-2068; consequently the format-then-parse round
trip restores a valid date-time (at minute precision) exactly when its year
lies in 1969-2068; and every timestamp below the Unix second count of
2069-01-01 — in particular every generated timestamp, drawn below the current
time — lands in a year inside that window. -/
theorem claim10_pivot :
    (∀ yy : Nat, 69 ≤ yy → yy ≤ 99 → posixYearPivot yy = 1900 + yy) ∧
    (∀ yy : Nat, yy ≤ 68 → posixYearPivot yy = 2000 + yy) ∧
    (∀ t : DateTime, 1 ≤ t.month → t.month ≤ 12 → 1 ≤ t.day →
      t.day ≤ daysInMonth t.year t.month → t.hour ≤ 23 → t.minute ≤ 59 →
      (strptime_mdyhm (formatChars t) = some { t with second := 0 } ↔
        1969 ≤ t.year ∧ t.year ≤ 2068)) ∧
    (∀ ts : Nat, ts < 3124224000 →
      1970 ≤ (fromtimestamp ts).year ∧ (fromtimestamp ts).year ≤ 2068) := by
  refine ⟨fun yy h1 h2 => by rw [posixYearPivot, if_pos h1],
    fun yy h1 => by rw [posixYearPivot, if_neg (by omega)], ?_, ?_⟩
  · intro t hm1 hm2 hd1 hd2 hh hmi
    have hd31 : t.day ≤ 31 := le_trans hd2 (daysInMonth_le _ _)
    rw [strptime_mdyhm, parse_format_eq posixYearPivot t hm1 hm2 hd1 hd31 hh hmi]
    constructor
    · intro heq
      by_cases hc : t.day ≤ daysInMonth (posixYearPivot (t.year % 100)) t.month
      · rw [if_pos hc] at heq
        have hy : posixYearPivot (t.year % 100) = t.year :=
          congrArg DateTime.year (Option.some.inj heq)
        have hb := posixYearPivot_bounds (t.year % 100) (by omega)
        omega
      · rw [if_neg hc] at heq
        exact absurd heq (by simp)
    · rintro ⟨hy1, hy2⟩
      have hpy : posixYearPivot (t.year % 100) = t.year := by
        rw [posixYearPivot]
        split_ifs <;> omega
      rw [hpy, if_pos hd2]
  · intro ts hts
    have hy : (fromtimestamp ts).year = (civilFromDays (ts / 86400)).1 := rfl
    rw [hy]
    exact civilFromDays_year_bounds (ts / 86400) (by omega)

/-- C10, witness: the pivot at 98 and 05, the round trip at 1998-10-12
18:03:45, and the year range of the timestamp 908215380 (1998-10-12). -/
theorem claim10_witness :
    ((69 : Nat) ≤ 98 ∧ posixYearPivot 98 = 1900 + 98) ∧
    ((5 : Nat) ≤ 68 ∧ posixYearPivot 5 = 2000 + 5) ∧
    (strptime_mdyhm (formatChars ⟨1998, 10, 12, 18, 3, 45⟩) = some ⟨1998, 10, 12, 18, 3, 0⟩ ↔
      (1969 : Nat) ≤ 1998 ∧ (1998 : Nat) ≤ 2068) ∧
    ((908215380 : Nat) < 3124224000 ∧
      1970 ≤ (fromtimestamp 908215380).year ∧ (fromtimestamp 908215380).year ≤ 2068) :=
  ⟨⟨by decide, claim10_pivot.1 98 (by decide) (by decide)⟩,
   ⟨by decide, claim10_pivot.2.1 5 (by decide)⟩,
   claim10_pivot.2.2.1 ⟨1998, 10, 12, 18, 3, 45⟩ (by decide) (by decide) (by decide) (by decide)
     (by decide) (by decide),
   by decide,
   claim10_pivot.2.2.2 908215380 (by decide)⟩

end DateParsePerf
